import Mathlib

/-!
Verification development for the Suta web-scraper repository
(`src/scraper.py`, `src/suta_scraper.py`).

The two Python files share the same pipeline: a session factory with a
retry policy (`create_session`), a sequential paginated fetch loop
(`fetch_products`), and — in `suta_scraper.py` only — a per-image
downloader (`download_image`) plus a batch stage inside `save_products`
that runs the downloads on a thread pool and then writes one report
block per product.

The embedding below translates that code shallowly:

* HTTP responses, thread-pool future outcomes and download outcomes are
  external inputs, modelled as explicit data (`PageResult`,
  `FutureBehavior`, `DownloadBehavior`).
* Python exceptions that the code does not catch are modelled with
  `Except Unit`: `Except.error ()` means an exception propagates out of
  the translated function.
* `suta_scraper.py` is embedded in full; `scraper.py`'s `create_session`
  (lines 19-31) and `fetch_products` (lines 33-68) are line-identical to
  `suta_scraper.py`'s (lines 22-34 and 36-72) except that its records
  carry no `id` field and no downloads happen, so the one embedding
  covers both where a claim cites both.
-/

/-- One raw product entry of the `products` list of a page body
(`src/suta_scraper.py` lines 59-67).  `images` holds the `src` field of
each image object, `variants` holds the `price` field of each variant
object; the scalar fields the loop reads (`id`, `title`, `handle`) are
carried directly. -/
structure Entry where
  id : Nat
  title : String
  handle : String
  images : List String
  variants : List String
deriving DecidableEq, Repr

/-- A normalized product record as appended to `all_products`
(`src/suta_scraper.py` lines 61-67; `src/scraper.py` lines 58-63 build
the same record minus the `id` field, with the key `image_url` in place
of `image`). -/
structure Product where
  id : Nat
  title : String
  price : String
  image_url : Option String
  url : String
deriving DecidableEq, Repr

/-- Normalization of one entry, `src/suta_scraper.py` lines 60-67:
`image_url = p["images"][0]["src"] if p["images"] else None` is
`p.images.head?`; `p["variants"][0]["price"]` raises `IndexError` when
the variants list is empty, which no enclosing handler catches —
modelled as `Except.error ()`. -/
def normalizeEntry (p : Entry) : Except Unit Product :=
  match p.variants with
  | [] => Except.error ()
  | v :: _ =>
    Except.ok { id := p.id, title := p.title, price := v,
                image_url := p.images.head?,
                url := "https://suta.in/products/" ++ p.handle }

/-- The `for p in products` body of the fetch loop
(`src/suta_scraper.py` lines 59-67): each entry is normalized and
appended in order; an uncaught `IndexError` at any entry aborts the
whole `fetch_products` call, so the error case swallows the page. -/
def normalizePage : List Entry → Except Unit (List Product)
  | [] => Except.ok []
  | e :: es =>
    match normalizeEntry e with
    | Except.error err => Except.error err
    | Except.ok p =>
      match normalizePage es with
      | Except.error err => Except.error err
      | Except.ok ps => Except.ok (p :: ps)

/-- What one iteration of the fetch loop observes for one page
(`src/suta_scraper.py` lines 47-57): either the guarded block raises
`requests.RequestException` or `ValueError` (`fail`), or it yields the
parsed `data.get("products", [])` list (`page`). -/
inductive PageResult where
  | fail : PageResult
  | page : List Entry → PageResult
deriving DecidableEq, Repr

/-- The `while True` pagination loop, `src/suta_scraper.py` lines 43-72
(`src/scraper.py` lines 40-66 are the same loop): page `i` of the run
consumes element `i` of the response sequence.  A caught request/parse
error breaks with the accumulator; an empty `products` list breaks with
the accumulator; otherwise the page is normalized (an uncaught
normalization error propagates) and the loop continues.  The `[]` case
is a modelling artifact for an exhausted response sequence — every
theorem below supplies a terminating page inside the list. -/
def fetchLoop : List PageResult → List Product → Except Unit (List Product)
  | [], acc => Except.ok acc
  | PageResult.fail :: _, acc => Except.ok acc
  | PageResult.page es :: rest, acc =>
    if es.isEmpty then Except.ok acc
    else
      match normalizePage es with
      | Except.error err => Except.error err
      | Except.ok ps => fetchLoop rest (acc ++ ps)

/-- `fetch_products`, `src/suta_scraper.py` lines 36-72: runs the
pagination loop with an empty accumulator against the given response
sequence. -/
def fetch_products (pages : List PageResult) : Except Unit (List Product) :=
  fetchLoop pages []

/-- Statement helper: normalization of a sequence of pages, page by
page, built from the source's `normalizePage`.  Used to say "the
normalized records of pages 1..k" in the pagination theorems. -/
def normalizePages : List (List Entry) → Except Unit (List (List Product))
  | [] => Except.ok []
  | es :: rest =>
    match normalizePage es with
    | Except.error err => Except.error err
    | Except.ok ps =>
      match normalizePages rest with
      | Except.error err => Except.error err
      | Except.ok qs => Except.ok (ps :: qs)

/-- Index of the last occurrence of `c` in `l` (Python `str.rfind`,
as an `Option` rather than `-1`). -/
def lastIdx (c : Char) : List Char → Option Nat
  | [] => none
  | a :: l =>
    match lastIdx c l with
    | some j => some (j + 1)
    | none => if a = c then some 0 else none

/-- First index of the basename of a path: one past the last `'/'`, or
`0` when the path has no separator (the `sepIndex + 1` of CPython's
`genericpath._splitext`; URLs contain no backslash, so the posix and nt
variants coincide on them). -/
def baseStart (l : List Char) : Nat :=
  match lastIdx '/' l with
  | some i => i + 1
  | none => 0

/-- The extension component of `os.path.splitext`, on the character
list of the path: the suffix starting at the last dot, provided that
dot lies inside the basename and is preceded there by at least one
non-dot character (leading dots of the basename never start an
extension); otherwise empty. -/
def splitextExt (l : List Char) : List Char :=
  match lastIdx '.' l with
  | none => []
  | some d =>
    if baseStart l ≤ d ∧ ∃ a ∈ (l.drop (baseStart l)).take (d - baseStart l), a ≠ '.' then
      l.drop d
    else []

/-- `src/suta_scraper.py` line 78,
`ext = os.path.splitext(url)[1].split('?')[0] or '.jpg'`, on character
lists: `split('?')[0]` is the portion before the first `'?'`, and the
`or` replaces an empty result with `".jpg"`. -/
def extFromUrl (l : List Char) : List Char :=
  let e := (splitextExt l).takeWhile (fun a => a != '?')
  if e = [] then ".jpg".toList else e

/-- Modelled from the spec: the extension-derivation rule as the spec
words it — "Derive a file extension from the source URL's path (portion
before any query string); default to a generic image extension if none
is present".  The path is the portion of the URL before the first
`'?'`; the extension is `splitext` of that path, defaulting to
`".jpg"`.  Kept separate from `extFromUrl` (the source's computation)
so the two rules can be compared. -/
def specExtFromUrl (l : List Char) : List Char :=
  let e := splitextExt (l.takeWhile (fun a => a != '?'))
  if e = [] then ".jpg".toList else e

/-- The extension the downloader uses for a URL string
(`src/suta_scraper.py` line 78). -/
def detect_ext (url : String) : String :=
  String.mk (extFromUrl url.toList)

/-- The spec-worded extension for a URL string (comparison target for
`detect_ext`). -/
def spec_ext (url : String) : String :=
  String.mk (specExtFromUrl url.toList)

/-- How one call of `download_image`'s guarded block resolves
(`src/suta_scraper.py` lines 81-85): the streamed GET and chunked write
succeed, or raise `requests.RequestException`, or raise any other
exception. -/
inductive DownloadBehavior where
  | success : DownloadBehavior
  | requestError : DownloadBehavior
  | otherError : DownloadBehavior
deriving DecidableEq, Repr

/-- `download_image`, `src/suta_scraper.py` lines 74-92: the extension
is derived from the URL, the destination filename is the stem with that
extension appended, and the function returns `(filename, True)` on
success, `(url, False)` on `requests.RequestException` (line 87) and on
any other exception (line 90).  It is total: every failure is caught
inside, none propagates. -/
def download_image (url : String) (filename : String) (b : DownloadBehavior) : String × Bool :=
  let dest := filename ++ detect_ext url
  match b with
  | DownloadBehavior.success => (dest, true)
  | DownloadBehavior.requestError => (url, false)
  | DownloadBehavior.otherError => (url, false)

/-- How one submitted future looks to the collection loop of
`save_products` (`src/suta_scraper.py` lines 113-120): it completed and
`future.result()` returns a `(result, success)` pair; or it completed
and `future.result()` raises; or it is still pending when the 60-second
batch wait of `as_completed(futures, timeout=60)` elapses. -/
inductive FutureBehavior where
  | completes : String × Bool → FutureBehavior
  | raises : FutureBehavior
  | pending : FutureBehavior
deriving DecidableEq, Repr

/-- The task-preparation loop of `save_products`
(`src/suta_scraper.py` lines 100-104): one `(id, image url, path stem)`
triple per product with a non-null image, in product order.  The
`IMAGE_FOLDER` directory prefix of `img_path` belongs to the excluded
filesystem-setup collaborator and is omitted from the stem. -/
def image_tasks (products : List Product) : List (Nat × String × String) :=
  products.filterMap (fun product =>
    product.image_url.map (fun u => (product.id, u, "product_" ++ toString product.id)))

/-- The result-collection loop of `save_products`
(`src/suta_scraper.py` lines 107-120), over tasks tagged with their
future's behavior.  `as_completed(futures, timeout=60)` yields every
completed future and then raises `concurrent.futures.TimeoutError` if
any future is still unfinished when the 60-second wait elapses; that
exception is raised by the `for` statement itself, outside the
`try`/`except` that only wraps `future.result()`, so nothing catches it
and `save_products` aborts — modelled as `Except.error ()` (the
partially filled local dict is unobservable then).  When every future
completes, the dict maps each task's id to `future.result()`, or to
`(url, False)` when `future.result()` raised (lines 118-120); ids are
unique per run, so the dict is modelled as the association list in task
order. -/
def collect_results (tasks : List (Nat × String × FutureBehavior)) :
    Except Unit (List (Nat × (String × Bool))) :=
  if ∃ t ∈ tasks, t.2.2 = FutureBehavior.pending then Except.error ()
  else
    Except.ok (tasks.map (fun t =>
      match t.2.2 with
      | FutureBehavior.completes r => (t.1, r)
      | FutureBehavior.raises => (t.1, (t.2.1, false))
      | FutureBehavior.pending => (t.1, (t.2.1, false))))

/-- The image line of one report block
(`src/suta_scraper.py` lines 129-136), with the excluded
text-serialization abstracted into a case tag.  `saved` carries the
value interpolated into `Image saved: ...`, which is the stored result
string, or `None` in the (unreachable while successful) defaulted
case — hence `Option String`, mirroring the type of
`download_results.get(..., (None, False))`. -/
inductive ImageField where
  | saved : Option String → ImageField
  | failed : ImageField
  | noImage : ImageField
deriving DecidableEq, Repr

/-- One written report block (`src/suta_scraper.py` lines 125-136),
with the serialization format (excluded collaborator) abstracted to the
four data it surfaces. -/
structure Report where
  title : String
  price : String
  url : String
  image : ImageField
deriving DecidableEq, Repr

/-- `download_results.get(product["id"], (None, False))`
(`src/suta_scraper.py` line 130): a defaulting lookup in the outcome
dict.  Stored pairs come back tagged `some`; a missing id yields
`(None, False)`. -/
def dict_get (results : List (Nat × (String × Bool))) (pid : Nat) :
    Option String × Bool :=
  match results.lookup pid with
  | some rs => (some rs.1, rs.2)
  | none => (none, false)

/-- The body of the writer loop for one product
(`src/suta_scraper.py` lines 125-136): title, price and url are copied
through; the image line is `No image available` when the product has no
image URL, else `Image saved: ...` when the looked-up outcome has
`success = True`, else `Image download failed`. -/
def report_line (results : List (Nat × (String × Bool))) (product : Product) :
    Report :=
  { title := product.title, price := product.price, url := product.url,
    image :=
      match product.image_url with
      | some _ =>
        let r := dict_get results product.id
        if r.2 then ImageField.saved r.1 else ImageField.failed
      | none => ImageField.noImage }

/-- The writer loop of `save_products`
(`src/suta_scraper.py` lines 123-138): one report block per product, in
the order of the fetched product list. -/
def report_records (products : List Product)
    (results : List (Nat × (String × Bool))) : List Report :=
  products.map (report_line results)

/-- The `Retry(...)` configuration of `create_session`
(`src/suta_scraper.py` lines 24-28 = `src/scraper.py` lines 21-25). -/
structure RetryConfig where
  total : Nat
  backoff_factor : Nat
  status_forcelist : List Nat
deriving DecidableEq, Repr

/-- The `retry_strategy` value of `create_session`:
`Retry(total=3, backoff_factor=1, status_forcelist=[429, 500, 502, 503, 504])`. -/
def retry_strategy : RetryConfig :=
  { total := 3, backoff_factor := 1, status_forcelist := [429, 500, 502, 503, 504] }

/-- The adapter mounts of the session returned by `create_session`
(`src/suta_scraper.py` lines 22-34): `requests.Session()` starts with
default adapters for both schemes, each carrying no retry policy
(`HTTPAdapter()` has `max_retries = 0`, modelled `none`), and line 30
`session.mount("https://", adapter)` replaces only the `https://` entry
with the retry-configured adapter.  `requests` keeps mounts sorted by
URL-prefix length descending and serves a request from the first mount
whose key is a prefix of the URL. -/
def create_session : List (String × Option RetryConfig) :=
  [("https://", some retry_strategy), ("http://", none)]

/-- `requests.Session.get_adapter`: the adapter of the first mount (in
length-descending order) whose key starts the URL (`str.startswith`,
taken on the character lists); `none` when no mount matches (requests
raises `InvalidSchema` there). -/
def get_adapter (session : List (String × Option RetryConfig)) (url : String) :
    Option (Option RetryConfig) :=
  (session.find? (fun m => m.1.toList.isPrefixOf url.toList)).map (fun m => m.2)

/-- The top-level run (`src/suta_scraper.py` lines 142-147):
`fetch_products` then `save_products`, each step's uncaught exception
propagating out of the run — the `__main__` block installs no handler.
`beh` assigns each submitted task (by product id) its future's
behavior; the value of the run is the ordered report-record list the
writer serializes. -/
def run (pages : List PageResult) (beh : Nat → FutureBehavior) :
    Except Unit (List Report) :=
  match fetch_products pages with
  | Except.error err => Except.error err
  | Except.ok products =>
    match collect_results ((image_tasks products).map (fun t => (t.1, t.2.1, beh t.1))) with
    | Except.error err => Except.error err
    | Except.ok results => Except.ok (report_records products results)

/-- A page response whose entries the normalization loop survives:
either a failed request, or a page on which every entry has at least
one variant (so `p["variants"][0]` cannot raise). -/
def pageOk : PageResult → Prop
  | PageResult.fail => True
  | PageResult.page es => ∀ e ∈ es, e.variants ≠ []

instance : DecidablePred pageOk := fun pr =>
  match pr with
  | PageResult.fail => inferInstanceAs (Decidable True)
  | PageResult.page es => inferInstanceAs (Decidable (∀ e ∈ es, e.variants ≠ []))

theorem normalizePage_ok_of_variants : ∀ es : List Entry,
    (∀ e ∈ es, e.variants ≠ []) → ∃ ps, normalizePage es = Except.ok ps := by
  intro es
  induction es with
  | nil => intro _; exact ⟨[], rfl⟩
  | cons e es ih =>
    intro h
    obtain ⟨ps, hps⟩ := ih (fun x hx => h x (List.mem_cons_of_mem _ hx))
    have he := h e (List.mem_cons_self _ _)
    cases hv : e.variants with
    | nil => exact absurd hv he
    | cons v vs =>
      refine ⟨{ id := e.id, title := e.title, price := v, image_url := e.images.head?,
                url := "https://suta.in/products/" ++ e.handle } :: ps, ?_⟩
      simp [normalizePage, normalizeEntry, hv, hps]

theorem fetchLoop_ok_of_pages : ∀ (pages : List PageResult) (acc : List Product),
    (∀ pr ∈ pages, pageOk pr) → ∃ r, fetchLoop pages acc = Except.ok r := by
  intro pages
  induction pages with
  | nil => intro acc _; exact ⟨acc, rfl⟩
  | cons pr rest ih =>
    intro acc h
    cases pr with
    | fail => exact ⟨acc, rfl⟩
    | page es =>
      by_cases hes : es.isEmpty
      · exact ⟨acc, by simp [fetchLoop, hes]⟩
      · have hok : ∀ e ∈ es, e.variants ≠ [] := h _ (List.mem_cons_self _ _)
        obtain ⟨ps, hps⟩ := normalizePage_ok_of_variants es hok
        obtain ⟨r, hr⟩ := ih (acc ++ ps) (fun x hx => h x (List.mem_cons_of_mem _ hx))
        exact ⟨r, by simp [fetchLoop, hes, hps, hr]⟩

theorem fetchLoop_append_pages : ∀ (ps : List (List Entry)) (qs : List (List Product))
    (acc : List Product) (rest : List PageResult),
    (∀ p ∈ ps, p ≠ []) → normalizePages ps = Except.ok qs →
    fetchLoop (ps.map PageResult.page ++ rest) acc = fetchLoop rest (acc ++ qs.flatten) := by
  intro ps
  induction ps with
  | nil =>
    intro qs acc rest _ hn
    have hq : qs = [] := by simpa [normalizePages] using hn
    subst hq
    simp
  | cons es ps ih =>
    intro qs acc rest hne hn
    cases hes : normalizePage es with
    | error err => simp [normalizePages, hes] at hn
    | ok p1 =>
      cases hrest : normalizePages ps with
      | error err => simp [normalizePages, hes, hrest] at hn
      | ok qs' =>
        have hq : qs = p1 :: qs' := by
          have := hn
          simp [normalizePages, hes, hrest] at this
          exact this.symm
        subst hq
        have hnil : ¬ es.isEmpty := by
          simp only [List.isEmpty_iff]
          exact hne es (List.mem_cons_self _ _)
        have h1 : fetchLoop ((es :: ps).map PageResult.page ++ rest) acc
            = fetchLoop (ps.map PageResult.page ++ rest) (acc ++ p1) := by
          simp [fetchLoop, hnil, hes]
        rw [h1, ih qs' (acc ++ p1) rest (fun x hx => hne x (List.mem_cons_of_mem _ hx)) hrest]
        simp [List.flatten_cons, List.append_assoc]

theorem lastIdx_eq_none (c : Char) (l : List Char) (h : c ∉ l) : lastIdx c l = none := by
  induction l with
  | nil => rfl
  | cons a l ih =>
    have h1 : c ∉ l := fun hm => h (List.mem_cons_of_mem _ hm)
    have h2 : ¬ a = c := fun he => h (he ▸ List.mem_cons_self _ _)
    simp [lastIdx, ih h1, h2]

theorem lastIdx_append_not_mem (c : Char) (l₁ l₂ : List Char) (h : c ∉ l₂) :
    lastIdx c (l₁ ++ l₂) = lastIdx c l₁ := by
  induction l₁ with
  | nil => simp [lastIdx_eq_none c l₂ h, lastIdx]
  | cons a l₁ ih => simp [lastIdx, ih]

theorem lastIdx_lt_length (c : Char) (l : List Char) (j : Nat)
    (h : lastIdx c l = some j) : j < l.length := by
  induction l generalizing j with
  | nil => simp [lastIdx] at h
  | cons a l ih =>
    simp only [lastIdx] at h
    cases h2 : lastIdx c l with
    | some k =>
      rw [h2] at h
      simp only [Option.some.injEq] at h
      have hk := ih k h2
      simp only [List.length_cons]
      omega
    | none =>
      rw [h2] at h
      by_cases hac : a = c
      · simp only [if_pos hac, Option.some.injEq] at h
        simp only [List.length_cons]
        omega
      · simp [if_neg hac] at h

theorem takeWhile_append_all (p : Char → Bool) (l₁ : List Char) (x : Char) (l₂ : List Char)
    (h₁ : ∀ a ∈ l₁, p a = true) (hx : p x = false) :
    (l₁ ++ x :: l₂).takeWhile p = l₁ := by
  induction l₁ with
  | nil => simp [List.takeWhile_cons, hx]
  | cons a l₁ ih =>
    have ha := h₁ a (List.mem_cons_self _ _)
    simp [List.takeWhile_cons, ha, ih (fun b hb => h₁ b (List.mem_cons_of_mem _ hb))]

theorem splitextExt_of_none (l : List Char) (h : lastIdx '.' l = none) :
    splitextExt l = [] := by
  simp [splitextExt, h]

theorem splitextExt_of_some (l : List Char) (d : Nat) (h : lastIdx '.' l = some d) :
    splitextExt l =
      if baseStart l ≤ d ∧ ∃ a ∈ (l.drop (baseStart l)).take (d - baseStart l), a ≠ '.' then
        l.drop d
      else [] := by
  simp [splitextExt, h]

theorem baseStart_le_length (l : List Char) : baseStart l ≤ l.length := by
  rw [baseStart]
  cases h : lastIdx '/' l with
  | none => exact Nat.zero_le _
  | some i => exact lastIdx_lt_length '/' l i h

theorem extFromUrl_eq_spec (P Q : List Char)
    (hP : '?' ∉ P) (hQd : '.' ∉ Q) (hQs : '/' ∉ Q) :
    extFromUrl (P ++ '?' :: Q) = specExtFromUrl (P ++ '?' :: Q) := by
  have hdq : '.' ∉ ('?' :: Q) := by
    intro hm
    rcases List.mem_cons.mp hm with h | h
    · exact absurd h (by decide)
    · exact hQd h
  have hsq : '/' ∉ ('?' :: Q) := by
    intro hm
    rcases List.mem_cons.mp hm with h | h
    · exact absurd h (by decide)
    · exact hQs h
  have hdot : lastIdx '.' (P ++ '?' :: Q) = lastIdx '.' P :=
    lastIdx_append_not_mem _ _ _ hdq
  have hsl : lastIdx '/' (P ++ '?' :: Q) = lastIdx '/' P :=
    lastIdx_append_not_mem _ _ _ hsq
  have hbase : baseStart (P ++ '?' :: Q) = baseStart P := by
    simp [baseStart, hsl]
  have hPtrue : ∀ a ∈ P, (a != '?') = true := by
    intro a ha
    simp only [bne_iff_ne, ne_eq]
    intro hq
    exact hP (hq ▸ ha)
  have hpath : (P ++ '?' :: Q).takeWhile (fun a => a != '?') = P :=
    takeWhile_append_all _ _ _ _ hPtrue (by simp)
  cases hd : lastIdx '.' P with
  | none =>
    have h1 : splitextExt (P ++ '?' :: Q) = [] := splitextExt_of_none _ (hdot.trans hd)
    have h2 : splitextExt P = [] := splitextExt_of_none _ hd
    simp [extFromUrl, specExtFromUrl, h1, hpath, h2]
  | some d =>
    have hdP : d < P.length := lastIdx_lt_length _ _ _ hd
    have hsle : baseStart P ≤ P.length := baseStart_le_length P
    have hdropfull : (P ++ '?' :: Q).drop (baseStart P) = P.drop (baseStart P) ++ '?' :: Q := by
      rw [List.drop_append_eq_append_drop, Nat.sub_eq_zero_of_le hsle, List.drop]
    have htake : ((P ++ '?' :: Q).drop (baseStart P)).take (d - baseStart P)
        = (P.drop (baseStart P)).take (d - baseStart P) := by
      rw [hdropfull]
      exact List.take_append_of_le_length (by rw [List.length_drop]; omega)
    rw [extFromUrl, specExtFromUrl, hpath,
      splitextExt_of_some _ _ (hdot.trans hd), splitextExt_of_some _ _ hd, hbase, htake]
    by_cases hc : baseStart P ≤ d ∧ ∃ a ∈ (P.drop (baseStart P)).take (d - baseStart P), a ≠ '.'
    · rw [if_pos hc, if_pos hc]
      have hdropd : (P ++ '?' :: Q).drop d = P.drop d ++ '?' :: Q := by
        rw [List.drop_append_eq_append_drop, Nat.sub_eq_zero_of_le (Nat.le_of_lt hdP), List.drop]
      rw [hdropd]
      have hPd : ∀ a ∈ P.drop d, (a != '?') = true :=
        fun a ha => hPtrue a (List.drop_subset d P ha)
      rw [takeWhile_append_all _ _ _ _ hPd (by simp)]
    · rw [if_neg hc, if_neg hc]
      simp [List.takeWhile]

/-- C3: for every sequence of pages where pages 1..k are non-empty (and
normalize without error) and page k+1 is empty, the paginated fetch
returns exactly the concatenation of the normalized product records of
pages 1..k, in source order (page order, and entry order within each
page), and terminates after requesting page k+1 — the result does not
depend on any response after page k+1 (`rest` is arbitrary). -/
theorem fetch_products_concat_pages (ps : List (List Entry)) (qs : List (List Product))
    (rest : List PageResult)
    (hne : ∀ p ∈ ps, p ≠ []) (hn : normalizePages ps = Except.ok qs) :
    fetch_products (ps.map PageResult.page ++ PageResult.page [] :: rest)
      = Except.ok qs.flatten := by
  rw [fetch_products, fetchLoop_append_pages ps qs [] _ hne hn]
  simp [fetchLoop]

theorem fetch_products_concat_pages_witness :
    fetch_products
      ([[{ id := 1, title := "a", handle := "h", images := ["i"], variants := ["9"] }],
        [{ id := 2, title := "b", handle := "g", images := [], variants := ["7"] }]].map
          PageResult.page ++ PageResult.page [] :: [PageResult.fail])
      = Except.ok
          [{ id := 1, title := "a", price := "9", image_url := some "i",
             url := "https://suta.in/products/h" },
           { id := 2, title := "b", price := "7", image_url := none,
             url := "https://suta.in/products/g" }] := by
  have h := fetch_products_concat_pages
    [[{ id := 1, title := "a", handle := "h", images := ["i"], variants := ["9"] }],
     [{ id := 2, title := "b", handle := "g", images := [], variants := ["7"] }]]
    [[{ id := 1, title := "a", price := "9", image_url := some "i",
        url := "https://suta.in/products/h" }],
     [{ id := 2, title := "b", price := "7", image_url := none,
        url := "https://suta.in/products/g" }]]
    [PageResult.fail] (by decide) rfl
  simpa using h

/-- C4: for every fetch error occurring at page j (network error,
timeout, non-2xx after retries, or malformed response body — all of
which the source catches as `requests.RequestException` or
`ValueError`), the paginated fetch terminates the loop and returns
exactly the records accumulated from pages 1..j-1, with no exception
surfacing (`Except.ok`, independent of any response after page j). -/
theorem fetch_products_partial_on_error (ps : List (List Entry)) (qs : List (List Product))
    (rest : List PageResult)
    (hne : ∀ p ∈ ps, p ≠ []) (hn : normalizePages ps = Except.ok qs) :
    fetch_products (ps.map PageResult.page ++ PageResult.fail :: rest)
      = Except.ok qs.flatten := by
  rw [fetch_products, fetchLoop_append_pages ps qs [] _ hne hn]
  simp [fetchLoop]

theorem fetch_products_partial_on_error_witness :
    fetch_products
      ([[{ id := 1, title := "a", handle := "h", images := ["i"], variants := ["9"] }]].map
          PageResult.page ++ PageResult.fail :: [])
      = Except.ok
          [{ id := 1, title := "a", price := "9", image_url := some "i",
             url := "https://suta.in/products/h" }] := by
  have h := fetch_products_partial_on_error
    [[{ id := 1, title := "a", handle := "h", images := ["i"], variants := ["9"] }]]
    [[{ id := 1, title := "a", price := "9", image_url := some "i",
        url := "https://suta.in/products/h" }]]
    [] (by decide) rfl
  simpa using h

/-- C7 (counterexample to the claim as stated): an entry whose images
list is empty but whose variants list is also empty makes normalization
raise (`p["variants"][0]` is an uncaught `IndexError`), so "for every
product entry whose images list is empty, normalization ... never
raises an error" is false on the code. -/
theorem normalizeEntry_empty_images_cex :
    normalizeEntry { id := 1, title := "t", handle := "h", images := [], variants := [] }
      = Except.error () := rfl

/-- C7 (amended): for every product entry whose images list is empty
and whose variants list is nonempty, normalization produces a record
whose `image_url` is `none`, and raises no error. -/
theorem normalizeEntry_empty_images (e : Entry) (himg : e.images = [])
    (hv : e.variants ≠ []) :
    ∃ p, normalizeEntry e = Except.ok p ∧ p.image_url = none := by
  cases hvar : e.variants with
  | nil => exact absurd hvar hv
  | cons v vs =>
    refine ⟨{ id := e.id, title := e.title, price := v, image_url := e.images.head?,
              url := "https://suta.in/products/" ++ e.handle }, ?_, ?_⟩
    · simp [normalizeEntry, hvar]
    · simp [himg]

theorem normalizeEntry_empty_images_witness :
    ∃ p, normalizeEntry { id := 1, title := "t", handle := "h", images := [], variants := ["9"] }
        = Except.ok p ∧ p.image_url = none :=
  normalizeEntry_empty_images
    { id := 1, title := "t", handle := "h", images := [], variants := ["9"] } rfl (by decide)

theorem collect_results_ok_of_no_pending (tasks : List (Nat × String × FutureBehavior))
    (hp : ∀ t ∈ tasks, t.2.2 ≠ FutureBehavior.pending) :
    collect_results tasks
      = Except.ok (tasks.map (fun t =>
          match t.2.2 with
          | FutureBehavior.completes r => (t.1, r)
          | FutureBehavior.raises => (t.1, (t.2.1, false))
          | FutureBehavior.pending => (t.1, (t.2.1, false)))) := by
  have hc : ¬ ∃ t ∈ tasks, t.2.2 = FutureBehavior.pending := by
    rintro ⟨t, ht, h⟩
    exact hp t ht h
  simp only [collect_results]
  rw [if_neg hc]

/-- C1 (counterexample to the claim as stated): with one submitted task
whose future is still pending when the 60-second batch wait elapses,
`as_completed(futures, timeout=60)` raises `TimeoutError` outside the
per-future `try`/`except`, so the batch stage returns no outcome
mapping at all — not a mapping with one key per submitted
identifier. -/
theorem collect_results_batch_timeout_cex :
    collect_results [(1, "https://a/img.jpg", FutureBehavior.pending)]
      = Except.error () := rfl

/-- C1 (amended): for any set of N submitted download tasks with unique
identifiers, provided every submitted future completes — returning or
raising — before the 60-second overall batch wait elapses, the batch
download stage returns an outcome mapping with exactly one key per
submitted identifier, in submission order, regardless of per-task
success, failure or per-request timeout. -/
theorem collect_results_complete_keys (tasks : List (Nat × String × FutureBehavior))
    (_hu : (tasks.map (fun t => t.1)).Nodup)
    (hp : ∀ t ∈ tasks, t.2.2 ≠ FutureBehavior.pending) :
    ∃ m, collect_results tasks = Except.ok m
      ∧ m.map (fun x => x.1) = tasks.map (fun t => t.1) := by
  refine ⟨_, collect_results_ok_of_no_pending tasks hp, ?_⟩
  rw [List.map_map]
  apply List.map_congr_left
  rintro ⟨i, u, b⟩ _
  cases b <;> rfl

theorem collect_results_complete_keys_witness :
    ∃ m, collect_results
        [(1, "https://a/x.jpg", FutureBehavior.completes ("product_1.jpg", true)),
         (2, "https://a/y.jpg", FutureBehavior.raises)]
      = Except.ok m
      ∧ m.map (fun x => x.1)
        = [(1, "https://a/x.jpg", FutureBehavior.completes ("product_1.jpg", true)),
           (2, "https://a/y.jpg", FutureBehavior.raises)].map (fun t => t.1) :=
  collect_results_complete_keys _ (by decide) (by decide)

/-- C2 (counterexample to the claim as stated): a page whose single
entry has an empty variants list makes `p["variants"][0]["price"]`
raise an uncaught `IndexError` inside `fetch_products`, which escapes
the top-level run — not a partial result or a per-record failure
marker. -/
theorem run_empty_variants_cex :
    run [PageResult.page [{ id := 1, title := "t", handle := "h", images := [], variants := [] }]]
        (fun _ => FutureBehavior.completes ("f", true))
      = Except.error () := rfl

/-- C2 (amended): for every input whose page responses either fail or
carry entries that all have a nonempty variants list, and whose
download futures all complete before the 60-second batch wait elapses,
no exception or error escapes the top-level run: fetch failures are
converted into partial results and per-task download failures into
per-record failure markers, and the run yields its report records. -/
theorem run_no_escape (pages : List PageResult) (beh : Nat → FutureBehavior)
    (hp : ∀ pr ∈ pages, pageOk pr)
    (hb : ∀ pid, beh pid ≠ FutureBehavior.pending) :
    ∃ r, run pages beh = Except.ok r := by
  obtain ⟨products, hf⟩ := fetchLoop_ok_of_pages pages [] hp
  have hf' : fetch_products pages = Except.ok products := hf
  have hcoll := collect_results_ok_of_no_pending
    ((image_tasks products).map (fun t => (t.1, t.2.1, beh t.1)))
    (by
      rintro t ht
      obtain ⟨t0, _, rfl⟩ := List.mem_map.mp ht
      exact hb t0.1)
  refine ⟨report_records products
    (((image_tasks products).map (fun t => (t.1, t.2.1, beh t.1))).map (fun t =>
      match t.2.2 with
      | FutureBehavior.completes r => (t.1, r)
      | FutureBehavior.raises => (t.1, (t.2.1, false))
      | FutureBehavior.pending => (t.1, (t.2.1, false)))), ?_⟩
  simp only [run, hf', hcoll]

theorem run_no_escape_witness :
    ∃ r, run [PageResult.page [{ id := 1, title := "t", handle := "h",
                                 images := ["i"], variants := ["9"] }],
              PageResult.page []]
        (fun _ => FutureBehavior.completes ("product_1.jpg", true))
      = Except.ok r :=
  run_no_escape _ _ (by decide) (fun _ h => FutureBehavior.noConfusion h)

/-- C5: for every single download task, if the download fails with a
network-level failure (`requests.RequestException`, line 87) or any
unexpected error (`except Exception`, line 90), `download_image`
returns exactly `(original source URL, success = false)`; being a total
function of the failure case, it propagates no exception. -/
theorem download_image_failure_outcome (url filename : String) (b : DownloadBehavior)
    (hb : b = DownloadBehavior.requestError ∨ b = DownloadBehavior.otherError) :
    download_image url filename b = (url, false) := by
  rcases hb with rfl | rfl <;> rfl

theorem download_image_failure_outcome_witness :
    download_image "https://a/x.jpg" "product_1" DownloadBehavior.requestError
      = ("https://a/x.jpg", false) :=
  download_image_failure_outcome "https://a/x.jpg" "product_1"
    DownloadBehavior.requestError (Or.inl rfl)

/-- C6: for every list of fetched product records and every outcome
mapping, the report aggregation produces exactly one output record per
product, in the original fetch order (record i is the report line of
product i, carrying its title, price and canonical URL), and the image
field of each record is chosen by: no image URL — the no-image case;
image URL present and the looked-up outcome has success true — the
saved case with the looked-up path; otherwise — the download-failed
case. -/
theorem report_records_contract (products : List Product)
    (results : List (Nat × (String × Bool))) :
    (report_records products results).length = products.length
    ∧ (∀ i : Nat, ∀ p : Product, products[i]? = some p →
        (report_records products results)[i]? = some (report_line results p))
    ∧ (∀ p : Product, (report_line results p).title = p.title
        ∧ (report_line results p).price = p.price
        ∧ (report_line results p).url = p.url)
    ∧ (∀ p : Product, p.image_url = none →
        (report_line results p).image = ImageField.noImage)
    ∧ (∀ p : Product, ∀ u : String, p.image_url = some u →
        (dict_get results p.id).2 = true →
        (report_line results p).image = ImageField.saved (dict_get results p.id).1)
    ∧ (∀ p : Product, ∀ u : String, p.image_url = some u →
        (dict_get results p.id).2 = false →
        (report_line results p).image = ImageField.failed) := by
  refine ⟨by simp [report_records], ?_, ?_, ?_, ?_, ?_⟩
  · intro i p h
    simp [report_records, List.getElem?_map, h]
  · intro p
    exact ⟨rfl, rfl, rfl⟩
  · intro p h
    simp [report_line, h]
  · intro p u h hs
    simp [report_line, h, hs]
  · intro p u h hs
    simp [report_line, h, hs]

theorem report_records_contract_witness :
    (report_records [{ id := 1, title := "t", price := "9", image_url := some "u",
                       url := "w" }] [])[0]?
      = some (report_line [] { id := 1, title := "t", price := "9", image_url := some "u",
                               url := "w" })
    ∧ (report_line [] { id := 1, title := "t", price := "9", image_url := some "u",
                        url := "w" }).image = ImageField.failed := by
  have h := report_records_contract
    [{ id := 1, title := "t", price := "9", image_url := some "u", url := "w" }] []
  exact ⟨h.2.1 0 _ rfl, h.2.2.2.2.2 _ "u" rfl rfl⟩

/-- C10: for every product that has an image URL but whose identifier
is absent from the outcome mapping at aggregation time, the defaulting
lookup `download_results.get(id, (None, False))` makes the aggregator
write the download-failed case for that product; the lookup is total,
so no key error can be raised. -/
theorem report_line_missing_outcome_failed (results : List (Nat × (String × Bool)))
    (p : Product) (u : String) (hi : p.image_url = some u)
    (hm : results.lookup p.id = none) :
    (report_line results p).image = ImageField.failed := by
  simp [report_line, dict_get, hi, hm]

theorem report_line_missing_outcome_failed_witness :
    (report_line [(2, ("x", true))]
        { id := 1, title := "t", price := "9", image_url := some "u", url := "w" }).image
      = ImageField.failed :=
  report_line_missing_outcome_failed [(2, ("x", true))]
    { id := 1, title := "t", price := "9", image_url := some "u", url := "w" } "u" rfl rfl

/-- C9 (counterexample to the claim as stated): the retry-configured
adapter is mounted only for the `https://` scheme, so a request through
the session to an `http://` URL is served by the default adapter, which
carries no retry policy — "every request through it retries up to 3
attempts" is false on the code. -/
theorem create_session_http_no_retry_cex :
    get_adapter create_session "http://suta.in/collections/gift-box/products.json"
      = some none := rfl

/-- C9 (amended): every request through the client to an `https://` URL
is served by the mounted adapter whose retry policy is exactly
`total = 3` retry attempts, backoff factor 1, and status list
{429, 500, 502, 503, 504}; requests to `http://` URLs use the default
adapter with no retries (the backoff delay schedule itself is interior
to `urllib3`, outside this repository's code). -/
theorem create_session_https_retry (url : String)
    (h : "https://".toList.isPrefixOf url.toList = true) :
    get_adapter create_session url = some (some retry_strategy)
    ∧ retry_strategy.total = 3
    ∧ retry_strategy.backoff_factor = 1
    ∧ retry_strategy.status_forcelist = [429, 500, 502, 503, 504] := by
  refine ⟨?_, rfl, rfl, rfl⟩
  have h' : (['h', 't', 't', 'p', 's', ':', '/', '/'] : List Char).isPrefixOf url.data
      = true := h
  simp [get_adapter, create_session, List.find?, h']

theorem create_session_https_retry_witness :
    get_adapter create_session "https://suta.in/collections/lehengas/products.json"
      = some (some retry_strategy)
    ∧ retry_strategy.total = 3
    ∧ retry_strategy.backoff_factor = 1
    ∧ retry_strategy.status_forcelist = [429, 500, 502, 503, 504] :=
  create_session_https_retry "https://suta.in/collections/lehengas/products.json" (by decide)

/-- C8 (counterexample to the claim as stated): the code applies
`os.path.splitext` to the whole URL and only afterwards truncates at
`'?'`, so for a URL whose query string contains a dot the derived
extension is taken from the query, not from the path before the query:
on `https://a/img.png?v=1.2` the code derives `.2` while the claimed
path-before-query rule derives `.png`. -/
theorem detect_ext_query_dot_cex :
    detect_ext "https://a/img.png?v=1.2" = ".2"
    ∧ spec_ext "https://a/img.png?v=1.2" = ".png"
    ∧ detect_ext "https://a/img.png?v=1.2" ≠ spec_ext "https://a/img.png?v=1.2" := by
  refine ⟨rfl, rfl, ?_⟩
  decide

/-- C8 (amended): the per-task downloader derives the extension by
applying `os.path.splitext` to the entire URL and then keeping only the
portion before the first `'?'`, defaulting to `.jpg` when that is
empty; this agrees with the extension of the URL's path (the portion
before the query string) whenever the path contains no `'?'` and the
query string contains neither `'.'` nor `'/'` — and the destination
filename is the destination stem concatenated with that extension. -/
theorem detect_ext_matches_spec (path q stem : String)
    (hP : '?' ∉ path.toList) (hQd : '.' ∉ q.toList) (hQs : '/' ∉ q.toList) :
    detect_ext (path ++ "?" ++ q) = spec_ext (path ++ "?" ++ q)
    ∧ download_image (path ++ "?" ++ q) stem DownloadBehavior.success
        = (stem ++ detect_ext (path ++ "?" ++ q), true) := by
  constructor
  · have hsplit : (path ++ "?" ++ q).toList = path.toList ++ '?' :: q.toList := by
      show (path ++ "?" ++ q).data = path.data ++ '?' :: q.data
      rw [String.data_append, String.data_append]
      show (path.data ++ ['?']) ++ q.data = path.data ++ '?' :: q.data
      simp
    rw [detect_ext, spec_ext, hsplit, extFromUrl_eq_spec _ _ hP hQd hQs]
  · rfl

theorem detect_ext_matches_spec_witness :
    detect_ext ("https://a/img.png" ++ "?" ++ "width=400")
        = spec_ext ("https://a/img.png" ++ "?" ++ "width=400")
    ∧ download_image ("https://a/img.png" ++ "?" ++ "width=400") "product_7"
        DownloadBehavior.success
        = ("product_7" ++ detect_ext ("https://a/img.png" ++ "?" ++ "width=400"), true) :=
  detect_ext_matches_spec "https://a/img.png" "width=400" "product_7"
    (by decide) (by decide) (by decide)
